import Mathlib

/-!
Verification of `scripts/update_cluster_ami.py`.

The script reconciles an AMI identifier into a YAML configuration file on a
long-lived update branch and opens a pull request.  This development gives a
shallow embedding of the script:

* the YAML document is an ordered association list of field name to scalar
  value, and `update_yaml_file_preserve_tags` transcribes the mutation loop
  (lines 46-71 of the script);
* the git/HTTP driver (`branches_differ`, `checkout_branch`,
  `merge_main_into_branch`, `commit_and_push_changes`, `create_pull_request`
  and the `__main__` block, embedded as `mainRun`) is modelled as a function
  from a `World` — the results every external command would return during the
  run — to the trace of side effects performed and the process exit code.
-/

namespace AmiUpdate

/-- A YAML mapping document: an ordered association list of field name to
scalar value, as loaded by the ruamel parser at line 51. -/
abbrev Doc := List (String × String)

/-- Lookup of `data[key]` / the `key in data` test: the value at the first
entry whose name is `k`, if any. -/
def lookup (d : Doc) (k : String) : Option String :=
  match d with
  | [] => none
  | (k1, v) :: rest => if k1 = k then some v else lookup rest k

/-- Assignment `data[key] = ami_id` on a mapping: every entry named `k` gets
value `v`, every other entry is untouched; no entry is created or reordered. -/
def setVal (d : Doc) (k v : String) : Doc :=
  match d with
  | [] => []
  | (k1, v1) :: rest =>
    (if k1 = k then (k, v) else (k1, v1)) :: setVal rest k v

/-- The closed set of recognized field names, line 55 of the script. -/
def mutationPlan : List String := ["PROD_AMI", "DEV_AMI"]

/-- One iteration of the loop at lines 55-58: if `key` is present in the
document with a value different from `amiId`, assign `amiId` and append `key`
to the list of updated keys; otherwise leave the state unchanged. -/
def updateStep (amiId : String) (st : Doc × List String) (key : String) :
    Doc × List String :=
  match lookup st.1 key with
  | some v => if v ≠ amiId then (setVal st.1 key amiId, st.2 ++ [key]) else st
  | none => st

/-- The document mutation of `update_yaml_file_preserve_tags` (lines 46-71):
fold the update loop over the plan, returning the mutated document and the
`updated_keys` list. -/
def update_yaml_file_preserve_tags (d : Doc) (amiId : String) :
    Doc × List String :=
  mutationPlan.foldl (updateStep amiId) (d, [])

/-- The boolean the function returns at line 71: `bool(updated_keys)`. -/
def mutateChanged (d : Doc) (amiId : String) : Bool :=
  !(update_yaml_file_preserve_tags d amiId).2.isEmpty

/-- File operations performed by `update_yaml_file_preserve_tags`. -/
inductive FileOp
  | read
  | write
  deriving DecidableEq, Repr

/-- File-level behaviour of `update_yaml_file_preserve_tags`: the script opens
the file for reading at line 50 and unconditionally reopens it for writing and
dumps the document at lines 60-61, whether or not any key changed. -/
def updateFileRun (d : Doc) (amiId : String) :
    List FileOp × (Doc × List String) :=
  ([FileOp.read, FileOp.write], update_yaml_file_preserve_tags d amiId)

/-- Side effects the script performs through external commands.  Each
constructor stands for one subprocess or HTTP call site:

* `fetchAll` — `git fetch --all` (line 204);
* `branchList` — `git branch --list <name>` (line 104);
* `checkoutLocal` — `git checkout <name>` (line 106);
* `createLocalBranch` — `git checkout -b <name>` (line 109);
* `checkoutTrack` — `git checkout -t origin/<name>` (line 112);
* `pullMain` — `git pull origin main` (line 208);
* `fetchOrigin`, `revParse`, `diffCheck` — the commands of
  `branches_differ` (lines 81-93);
* `mergeAttempt`, `mergeAbort` — `git merge origin/main ...` and
  `git merge --abort` (lines 121, 128);
* `gitConfig`, `lsRemote`, `rebasePull`, `rebaseAbort`, `gitAdd`,
  `stagedCheck`, `commit`, `push` — the commands of
  `commit_and_push_changes` (lines 133-169);
* `mutateFile` — the load/rewrite of the YAML file (lines 50-61);
* `createPRCall` — the `POST /pulls` request (line 191);
* `lookupPR` — a query for an existing open pull request; this effect is
  part of the vocabulary so theorems can state that the script never emits
  it (the script has no such query). -/
inductive Effect
  | fetchAll
  | branchList
  | checkoutLocal
  | createLocalBranch
  | checkoutTrack
  | pullMain
  | fetchOrigin
  | revParse
  | diffCheck
  | mergeAttempt
  | mergeAbort
  | gitConfig
  | lsRemote
  | rebasePull
  | rebaseAbort
  | gitAdd
  | stagedCheck
  | commit
  | push
  | mutateFile
  | createPRCall
  | lookupPR
  deriving DecidableEq, Repr

/-- The answers the external world gives to every command the run issues.
Fields record results of the corresponding queries:

* `mainLocal` — `git branch --list main` is non-empty;
* `updLocal` — `git branch --list <update-branch>` is non-empty at the start
  of the run;
* `baseRev` — output of `git rev-parse origin/main`;
* `updateRev` — output of `git rev-parse origin/<update-branch>`; `none`
  when the remote update branch does not exist, in which case the command
  fails with a non-zero exit status (and, being run with `check=True`,
  raises `CalledProcessError`);
* `contentDiffers` — `git diff --quiet base..update` exits non-zero
  (tree content differs between the two heads);
* `mergeOk` — `git merge origin/main` succeeds (no merge conflict);
* `amiId` — result of `get_latest_available_ami` (`none`: no AVAILABLE AMI);
* `doc` — the document loaded from the YAML file;
* `remoteUpdListed` — `git ls-remote --heads origin <update-branch>` is
  non-empty at line 141;
* `rebaseOk` — `git pull --rebase origin <update-branch>` succeeds;
* `staged` — after `git add`, `git diff --cached --quiet` exits non-zero,
  i.e. there ARE staged changes;
* `pushOk` — the conditional `git push --force-with-lease` is accepted;
* `prStatus`, `prAlreadyText` — HTTP status of the pull-request creation
  response and whether its body contains "A pull request already exists". -/
structure World where
  mainLocal : Bool
  updLocal : Bool
  baseRev : String
  updateRev : Option String
  contentDiffers : Bool
  mergeOk : Bool
  amiId : Option String
  doc : Doc
  remoteUpdListed : Bool
  rebaseOk : Bool
  staged : Bool
  pushOk : Bool
  prStatus : Nat
  prAlreadyText : Bool
  deriving DecidableEq, Repr

/-- `checkout_branch` (lines 102-112): effects performed and whether the
function returns normally.  `localExists` is the `git branch --list` answer,
`trackOk` whether `git checkout -t origin/<name>` would succeed (the remote
branch exists); when that command fails the `CalledProcessError` propagates,
which the `false` component signals. -/
def checkout_branch (localExists createIfMissing trackOk : Bool) :
    List Effect × Bool :=
  if localExists then ([Effect.branchList, Effect.checkoutLocal], true)
  else if createIfMissing then
    ([Effect.branchList, Effect.createLocalBranch], true)
  else ([Effect.branchList, Effect.checkoutTrack], trackOk)

/-- `branches_differ` (lines 79-99): fetch, rev-parse both branches, compare;
when the revisions differ, ask `git diff --quiet`.  Result `none` means the
second `rev-parse` raised (remote update branch absent); otherwise
`some differ` is the boolean the function returns. -/
def branches_differ (w : World) : List Effect × Option Bool :=
  match w.updateRev with
  | none => ([Effect.fetchOrigin, Effect.revParse, Effect.revParse], none)
  | some r =>
    if w.baseRev = r then
      ([Effect.fetchOrigin, Effect.revParse, Effect.revParse], some false)
    else
      ([Effect.fetchOrigin, Effect.revParse, Effect.revParse,
        Effect.diffCheck], some w.contentDiffers)

/-- `merge_main_into_branch` (lines 115-129): check out the update branch,
merge `origin/main` into it; on `CalledProcessError` run `git merge --abort`
and return `False`.  Result `none` means the checkout itself raised. -/
def merge_main_into_branch (w : World) : List Effect × Option Bool :=
  let co := checkout_branch w.updLocal false w.updateRev.isSome
  if co.2 then
    if w.mergeOk then (co.1 ++ [Effect.mergeAttempt], some true)
    else (co.1 ++ [Effect.mergeAttempt, Effect.mergeAbort], some false)
  else (co.1, none)

/-- Outcome of `commit_and_push_changes`: `fatal` stands for `sys.exit(1)`,
`noChange` for the `return False` at line 159, `pushed` for the
`return True` at line 175. -/
inductive CPRes
  | fatal
  | noChange
  | pushed
  deriving DecidableEq, Repr

/-- Lines 152-175 of `commit_and_push_changes`: stage the file, test for
staged changes, and if any, commit and push once; a rejected push is
`sys.exit(1)` on the spot. -/
def stageCommitPush (w : World) (e : List Effect) : List Effect × CPRes :=
  if w.staged then
    if w.pushOk then
      (e ++ [Effect.gitAdd, Effect.stagedCheck, Effect.commit, Effect.push],
        CPRes.pushed)
    else
      (e ++ [Effect.gitAdd, Effect.stagedCheck, Effect.commit, Effect.push],
        CPRes.fatal)
  else (e ++ [Effect.gitAdd, Effect.stagedCheck], CPRes.noChange)

/-- `commit_and_push_changes` (lines 132-175): configure git, check out the
update branch (creating it locally if missing), rebase onto the remote branch
when `ls-remote` says it exists (a failed rebase is aborted and fatal), then
stage, commit and push.  `updLocalNow` is whether the update branch exists
locally at this point of the run. -/
def commit_and_push_changes (w : World) (updLocalNow : Bool) :
    List Effect × CPRes :=
  let e := [Effect.gitConfig, Effect.gitConfig] ++
    (checkout_branch updLocalNow true true).1 ++ [Effect.lsRemote]
  if w.remoteUpdListed then
    if w.rebaseOk then stageCommitPush w (e ++ [Effect.rebasePull])
    else (e ++ [Effect.rebasePull, Effect.rebaseAbort], CPRes.fatal)
  else stageCommitPush w e

/-- Classification of the pull-request creation response (lines 192-199). -/
inductive PRRes
  | created
  | alreadyExists
  | failed
  deriving DecidableEq, Repr

/-- `create_pull_request` (lines 178-199): one unconditional `POST /pulls`;
201 is success, 422 with the already-exists text is treated as benign, any
other response merely prints a failure message — the function raises nothing
and the caller is not told. -/
def create_pull_request (status : Nat) (alreadyText : Bool) :
    List Effect × PRRes :=
  ([Effect.createPRCall],
    if status = 201 then PRRes.created
    else if status = 422 ∧ alreadyText = true then PRRes.alreadyExists
    else PRRes.failed)

/-- Result of a whole run: the effect trace and the process exit code
(`1` both for explicit `sys.exit(1)` and for an uncaught
`CalledProcessError`). -/
structure RunResult where
  effects : List Effect
  exitCode : Nat
  deriving DecidableEq, Repr

/-- Lines 223-235 of the `__main__` block, from the AMI lookup on: mutate the
file, and if any key changed, commit/push and (only when a commit was pushed)
create the pull request.  The run exits 0 whatever the pull-request call
returned. -/
def mainFromAmi (w : World) (e : List Effect) (updLocalNow : Bool) :
    RunResult :=
  match w.amiId with
  | none => ⟨e, 1⟩
  | some ami =>
    let e2 := e ++ [Effect.mutateFile]
    if (update_yaml_file_preserve_tags w.doc ami).2.isEmpty then ⟨e2, 0⟩
    else
      match (commit_and_push_changes w updLocalNow).2 with
      | CPRes.fatal => ⟨e2 ++ (commit_and_push_changes w updLocalNow).1, 1⟩
      | CPRes.noChange =>
        ⟨e2 ++ (commit_and_push_changes w updLocalNow).1, 0⟩
      | CPRes.pushed =>
        ⟨e2 ++ (commit_and_push_changes w updLocalNow).1 ++
          (create_pull_request w.prStatus w.prAlreadyText).1, 0⟩

/-- The `__main__` block (lines 202-235): fetch, check out and pull main,
compare the branches, merge main into the update branch when they differ
(exiting 1 on a failed merge), then hand over to the mutation/publish phase.
A `CalledProcessError` escaping `branches_differ` or the merge checkout ends
the process with exit code 1. -/
def mainRun (w : World) : RunResult :=
  let e := [Effect.fetchAll] ++ (checkout_branch w.mainLocal false true).1 ++
    [Effect.pullMain] ++ (branches_differ w).1
  match (branches_differ w).2 with
  | none => ⟨e, 1⟩
  | some true =>
    match (merge_main_into_branch w).2 with
    | none => ⟨e ++ (merge_main_into_branch w).1, 1⟩
    | some false => ⟨e ++ (merge_main_into_branch w).1, 1⟩
    | some true => mainFromAmi w (e ++ (merge_main_into_branch w).1) true
  | some false => mainFromAmi w e w.updLocal

end AmiUpdate

namespace AmiUpdate

theorem lookup_setVal_self (d : Doc) (k v : String) :
    lookup (setVal d k v) k = (lookup d k).map (fun _ => v) := by
  induction d with
  | nil => rfl
  | cons p rest ih =>
    obtain ⟨k1, v1⟩ := p
    simp only [setVal]
    by_cases h : k1 = k
    · rw [if_pos h]
      subst h
      simp [lookup]
    · rw [if_neg h]
      simp [lookup, h, ih]

theorem lookup_setVal_ne (d : Doc) (k v k2 : String) (h : k2 ≠ k) :
    lookup (setVal d k v) k2 = lookup d k2 := by
  induction d with
  | nil => rfl
  | cons p rest ih =>
    obtain ⟨k1, v1⟩ := p
    simp only [setVal]
    by_cases hk : k1 = k
    · rw [if_pos hk]
      subst hk
      simp [lookup, Ne.symm h, ih]
    · rw [if_neg hk]
      simp [lookup, ih]

theorem lookup_updateStep_self (a : String) (st : Doc × List String)
    (k : String) :
    lookup (updateStep a st k).1 k = (lookup st.1 k).map (fun _ => a) := by
  unfold updateStep
  cases h : lookup st.1 k with
  | none => simp [h]
  | some v =>
    by_cases hv : v = a
    · subst hv
      simp [h]
    · simp [h, hv, lookup_setVal_self]

theorem lookup_updateStep_ne (a : String) (st : Doc × List String)
    (k k2 : String) (h : k2 ≠ k) :
    lookup (updateStep a st k).1 k2 = lookup st.1 k2 := by
  unfold updateStep
  cases hl : lookup st.1 k with
  | none => simp
  | some v =>
    by_cases hv : v = a
    · subst hv
      simp
    · simp [hv, lookup_setVal_ne _ _ _ _ h]

theorem updateStep_snd (a : String) (st : Doc × List String) (k : String) :
    (updateStep a st k).2 = st.2 ∨ (updateStep a st k).2 = st.2 ++ [k] := by
  unfold updateStep
  cases hl : lookup st.1 k with
  | none => simp
  | some v =>
    by_cases hv : v = a
    · subst hv
      simp
    · simp [hv]

theorem updateStep_snd_of_change (a : String) (st : Doc × List String)
    (k v : String) (hl : lookup st.1 k = some v) (hv : v ≠ a) :
    (updateStep a st k).2 = st.2 ++ [k] := by
  unfold updateStep
  simp [hl, hv]

theorem updateStep_of_none (a : String) (st : Doc × List String) (k : String)
    (h : lookup st.1 k = none) : updateStep a st k = st := by
  unfold updateStep
  simp [h]

theorem updateStep_of_eq (a : String) (st : Doc × List String) (k : String)
    (h : lookup st.1 k = some a) : updateStep a st k = st := by
  unfold updateStep
  simp [h]

theorem updateStep_of_skip (a : String) (st : Doc × List String) (k : String)
    (h : (updateStep a st k).2 = st.2) : updateStep a st k = st := by
  cases hl : lookup st.1 k with
  | none => exact updateStep_of_none a st k hl
  | some v =>
    by_cases hv : v = a
    · exact updateStep_of_eq a st k (hv ▸ hl)
    · exfalso
      have h2 := updateStep_snd_of_change a st k v hl hv
      rw [h] at h2
      have h3 := congrArg List.length h2
      simp at h3

theorem update_eq (d : Doc) (a : String) :
    update_yaml_file_preserve_tags d a =
      updateStep a (updateStep a (d, []) "PROD_AMI") "DEV_AMI" := rfl

theorem updateStep_of_change (a : String) (st : Doc × List String)
    (k v : String) (hl : lookup st.1 k = some v) (hv : v ≠ a) :
    updateStep a st k = (setVal st.1 k a, st.2 ++ [k]) := by
  unfold updateStep
  simp [hl, hv]

theorem mem_updateStep_snd (a x : String) (st : Doc × List String)
    (k : String) :
    x ∈ (updateStep a st k).2 ↔
      x ∈ st.2 ∨ (x = k ∧ ∃ old, lookup st.1 k = some old ∧ old ≠ a) := by
  cases hl : lookup st.1 k with
  | none =>
    rw [updateStep_of_none a st k hl]
    simp [hl]
  | some u =>
    by_cases hv : u = a
    · rw [updateStep_of_eq a st k (hv ▸ hl)]
      subst hv
      simp [hl]
    · rw [updateStep_of_change a st k u hl hv]
      simp [hl, hv]

theorem lookup_update_plan (d : Doc) (v k : String) (hk : k ∈ mutationPlan) :
    lookup (update_yaml_file_preserve_tags d v).1 k =
      (lookup d k).map (fun _ => v) := by
  rw [update_eq]
  have hPD : ("PROD_AMI" : String) ≠ "DEV_AMI" := by decide
  simp only [mutationPlan, List.mem_cons, List.mem_singleton,
    List.not_mem_nil, or_false] at hk
  rcases hk with hk | hk
  · subst hk
    rw [lookup_updateStep_ne v _ "DEV_AMI" "PROD_AMI" hPD,
      lookup_updateStep_self]
  · subst hk
    rw [lookup_updateStep_self,
      lookup_updateStep_ne v _ "PROD_AMI" "DEV_AMI" (Ne.symm hPD)]

theorem lookup_update_notin (d : Doc) (v k : String)
    (hk : k ∉ mutationPlan) :
    lookup (update_yaml_file_preserve_tags d v).1 k = lookup d k := by
  rw [update_eq]
  simp only [mutationPlan, List.mem_cons, List.mem_singleton,
    List.not_mem_nil, or_false, not_or] at hk
  rw [lookup_updateStep_ne v _ "DEV_AMI" k hk.2,
    lookup_updateStep_ne v _ "PROD_AMI" k hk.1]

theorem mem_update_snd (d : Doc) (v k : String) (hk : k ∈ mutationPlan) :
    k ∈ (update_yaml_file_preserve_tags d v).2 ↔
      ∃ old, lookup d k = some old ∧ old ≠ v := by
  have hPD : ("PROD_AMI" : String) ≠ "DEV_AMI" := by decide
  rw [update_eq]
  simp only [mutationPlan, List.mem_cons, List.mem_singleton,
    List.not_mem_nil, or_false] at hk
  rcases hk with hk | hk
  · subst hk
    rw [mem_updateStep_snd, mem_updateStep_snd]
    simp [hPD]
  · subst hk
    rw [mem_updateStep_snd, mem_updateStep_snd,
      lookup_updateStep_ne v _ "PROD_AMI" "DEV_AMI" (Ne.symm hPD)]
    simp [Ne.symm hPD]

theorem update_idem_aux (d : Doc) (v : String) :
    update_yaml_file_preserve_tags (update_yaml_file_preserve_tags d v).1 v
      = ((update_yaml_file_preserve_tags d v).1, []) := by
  have hP := lookup_update_plan d v "PROD_AMI" (by decide)
  have hD := lookup_update_plan d v "DEV_AMI" (by decide)
  have s1 : updateStep v ((update_yaml_file_preserve_tags d v).1, [])
      "PROD_AMI" = ((update_yaml_file_preserve_tags d v).1, []) := by
    cases h : lookup d "PROD_AMI" with
    | none =>
      refine updateStep_of_none v _ _ ?_
      show lookup (update_yaml_file_preserve_tags d v).1 "PROD_AMI" = none
      rw [hP, h]
      rfl
    | some x =>
      refine updateStep_of_eq v _ _ ?_
      show lookup (update_yaml_file_preserve_tags d v).1 "PROD_AMI" = some v
      rw [hP, h]
      rfl
  have s2 : updateStep v ((update_yaml_file_preserve_tags d v).1, [])
      "DEV_AMI" = ((update_yaml_file_preserve_tags d v).1, []) := by
    cases h : lookup d "DEV_AMI" with
    | none =>
      refine updateStep_of_none v _ _ ?_
      show lookup (update_yaml_file_preserve_tags d v).1 "DEV_AMI" = none
      rw [hD, h]
      rfl
    | some x =>
      refine updateStep_of_eq v _ _ ?_
      show lookup (update_yaml_file_preserve_tags d v).1 "DEV_AMI" = some v
      rw [hD, h]
      rfl
  rw [update_eq, s1, s2]

theorem update_of_nochange (d : Doc) (v : String)
    (h : (update_yaml_file_preserve_tags d v).2 = []) :
    (update_yaml_file_preserve_tags d v).1 = d := by
  rw [update_eq] at h ⊢
  rcases updateStep_snd v (updateStep v (d, []) "PROD_AMI") "DEV_AMI"
    with h2 | h2
  · have e2 := updateStep_of_skip v _ _ h2
    rw [e2] at h ⊢
    rcases updateStep_snd v (d, []) "PROD_AMI" with h1 | h1
    · have e1 := updateStep_of_skip v _ _ h1
      rw [e1]
    · rw [h1] at h
      simp at h
  · rw [h2] at h
    simp at h

/-- C2: the mutation is idempotent — applying
`update_yaml_file_preserve_tags` once and then again with the same version
yields an empty `updated_keys` list and a `false` changed-flag on the second
application, for every document and version. -/
theorem C2_mutate_idempotent (d : Doc) (v : String) :
    (update_yaml_file_preserve_tags
        (update_yaml_file_preserve_tags d v).1 v).2 = [] ∧
    mutateChanged (update_yaml_file_preserve_tags d v).1 v = false := by
  have haux := update_idem_aux d v
  refine ⟨by rw [haux], ?_⟩
  unfold mutateChanged
  rw [haux]
  rfl

/-- Witness for C2 at a concrete document. -/
theorem C2_mutate_idempotent_witness :
    (update_yaml_file_preserve_tags
        (update_yaml_file_preserve_tags
          [("PROD_AMI", "img-000"), ("DEV_AMI", "img-000")] "img-001").1
        "img-001").2 = [] ∧
    mutateChanged
      (update_yaml_file_preserve_tags
        [("PROD_AMI", "img-000"), ("DEV_AMI", "img-000")] "img-001").1
      "img-001" = false :=
  C2_mutate_idempotent [("PROD_AMI", "img-000"), ("DEV_AMI", "img-000")]
    "img-001"

/-- C3: the mutation assigns the version exactly to the plan fields
(`PROD_AMI`, `DEV_AMI`) that are present with a different value, records
exactly those names in `updated_keys`, never creates absent fields, leaves
every field outside the plan untouched, and returns changed=true iff
`updated_keys` is non-empty. -/
theorem C3_mutate_exact (d : Doc) (v : String) :
    (∀ k, k ∈ mutationPlan →
      (k ∈ (update_yaml_file_preserve_tags d v).2 ↔
        ∃ old, lookup d k = some old ∧ old ≠ v)) ∧
    (∀ k, k ∈ mutationPlan → (lookup d k).isSome = true →
      lookup (update_yaml_file_preserve_tags d v).1 k = some v) ∧
    (∀ k, lookup d k = none →
      lookup (update_yaml_file_preserve_tags d v).1 k = none) ∧
    (∀ k, k ∉ mutationPlan →
      lookup (update_yaml_file_preserve_tags d v).1 k = lookup d k) ∧
    (mutateChanged d v = true ↔
      (update_yaml_file_preserve_tags d v).2 ≠ []) := by
  refine ⟨fun k hk => mem_update_snd d v k hk, ?_, ?_, ?_, ?_⟩
  · intro k hk hs
    rw [lookup_update_plan d v k hk]
    cases h : lookup d k with
    | none =>
      rw [h] at hs
      simp at hs
    | some x => rfl
  · intro k h
    by_cases hk : k ∈ mutationPlan
    · rw [lookup_update_plan d v k hk, h]
      rfl
    · rw [lookup_update_notin d v k hk, h]
  · exact fun k hk => lookup_update_notin d v k hk
  · unfold mutateChanged
    cases hupd : (update_yaml_file_preserve_tags d v).2 <;> simp

/-- Concrete document used by the C3 witness. -/
def docC3 : Doc := [("PROD_AMI", "img-000"), ("OTHER", "keep")]

/-- Witness for C3: on a concrete document, the present plan field with a
stale value is recorded as changed, and a field outside the plan keeps its
value. -/
theorem C3_mutate_exact_witness :
    "PROD_AMI" ∈ (update_yaml_file_preserve_tags docC3 "img-001").2 ∧
    lookup (update_yaml_file_preserve_tags docC3 "img-001").1 "OTHER" =
      some "keep" :=
  ⟨((C3_mutate_exact docC3 "img-001").1 "PROD_AMI" (by decide)).mpr
      ⟨"img-000", by decide, by decide⟩,
    by
      rw [(C3_mutate_exact docC3 "img-001").2.2.2.1 "OTHER" (by decide)]
      decide⟩

example :
    update_yaml_file_preserve_tags
      [("PROD_AMI", "img-000"), ("DEV_AMI", "img-000")] "img-001" =
    ([("PROD_AMI", "img-001"), ("DEV_AMI", "img-001")],
      ["PROD_AMI", "DEV_AMI"]) := by decide

example :
    update_yaml_file_preserve_tags
      [("PROD_AMI", "img-001"), ("OTHER", "x")] "img-001" =
    ([("PROD_AMI", "img-001"), ("OTHER", "x")], []) := by decide

theorem branches_differ_trace (w : World) :
    (branches_differ w).1 =
      [Effect.fetchOrigin, Effect.revParse, Effect.revParse] ∨
    (branches_differ w).1 =
      [Effect.fetchOrigin, Effect.revParse, Effect.revParse,
        Effect.diffCheck] := by
  unfold branches_differ
  cases hu : w.updateRev with
  | none => left; rfl
  | some r =>
    by_cases hb : w.baseRev = r
    · left
      simp [hb]
    · right
      simp [hb]

theorem branches_differ_some_isSome (w : World) (b : Bool)
    (h : (branches_differ w).2 = some b) : w.updateRev.isSome = true := by
  unfold branches_differ at h
  cases hu : w.updateRev with
  | none =>
    rw [hu] at h
    simp at h
  | some r => rfl

theorem merge_trace_ok (w : World) (hs : w.updateRev.isSome = true)
    (hm : w.mergeOk = true) :
    (merge_main_into_branch w).2 = some true ∧
    ((merge_main_into_branch w).1 =
        [Effect.branchList, Effect.checkoutLocal, Effect.mergeAttempt] ∨
      (merge_main_into_branch w).1 =
        [Effect.branchList, Effect.checkoutTrack, Effect.mergeAttempt]) := by
  cases hu : w.updLocal
  · refine ⟨?_, Or.inr ?_⟩ <;>
      simp [merge_main_into_branch, checkout_branch, hu, hs, hm]
  · refine ⟨?_, Or.inl ?_⟩ <;>
      simp [merge_main_into_branch, checkout_branch, hu, hs, hm]

theorem merge_trace_conflict (w : World) (hs : w.updateRev.isSome = true)
    (hm : w.mergeOk = false) :
    (merge_main_into_branch w).2 = some false ∧
    ((merge_main_into_branch w).1 =
        [Effect.branchList, Effect.checkoutLocal, Effect.mergeAttempt,
          Effect.mergeAbort] ∨
      (merge_main_into_branch w).1 =
        [Effect.branchList, Effect.checkoutTrack, Effect.mergeAttempt,
          Effect.mergeAbort]) := by
  cases hu : w.updLocal
  · refine ⟨?_, Or.inr ?_⟩ <;>
      simp [merge_main_into_branch, checkout_branch, hu, hs, hm]
  · refine ⟨?_, Or.inl ?_⟩ <;>
      simp [merge_main_into_branch, checkout_branch, hu, hs, hm]

/-- Concrete world for the C7 counterexample: base and update heads differ
("aaa" vs "bbb") but the tree content between them is identical. -/
def wC7 : World :=
  { mainLocal := true, updLocal := true, baseRev := "aaa"
    updateRev := some "bbb", contentDiffers := false, mergeOk := true
    amiId := some "img-001", doc := [], remoteUpdListed := true
    rebaseOk := true, staged := false, pushOk := true, prStatus := 201
    prAlreadyText := false }

/-- C7 counterexample: the head commits of the two branches differ, yet
`branches_differ` answers false because `git diff --quiet` found identical
content — refuting "true if and only if the head commits differ". -/
theorem C7_counterexample :
    wC7.baseRev ≠ "bbb" ∧ wC7.updateRev = some "bbb" ∧
    (branches_differ wC7).2 = some false := by decide

/-- C7 amended: when the remote update branch exists with head `r`, the
divergence query is true iff the head commits differ AND the tree content
between the two heads differs. -/
theorem C7_diverges_characterization (w : World) (r : String)
    (h : w.updateRev = some r) :
    ((branches_differ w).2 = some true ↔
      (w.baseRev ≠ r ∧ w.contentDiffers = true)) := by
  unfold branches_differ
  rw [h]
  by_cases hb : w.baseRev = r <;> simp [hb]

/-- Witness for the amended C7 at the concrete world `wC7`. -/
theorem C7_diverges_characterization_witness :
    (branches_differ wC7).2 = some true ↔
      (wC7.baseRev ≠ "bbb" ∧ wC7.contentDiffers = true) :=
  C7_diverges_characterization wC7 "bbb" rfl

/-- C8 counterexample: even when an open pull request already exists (the
422 already-exists response), `create_pull_request` performs no lookup and
still issues the creation call, and two invocations issue two creation
calls — refuting "queries before creating" and "at most one creation
call". -/
theorem C8_counterexample :
    (create_pull_request 422 true).1 = [Effect.createPRCall] ∧
    Effect.lookupPR ∉ (create_pull_request 422 true).1 ∧
    ((create_pull_request 422 true).1 ++
        (create_pull_request 422 true).1).count Effect.createPRCall = 2 := by
  decide

/-- C8 amended: `create_pull_request` never queries for an existing open
request; every invocation issues exactly one creation call, and exactly the
422 already-exists response is classified as benign success, without looking
up or returning the existing request. -/
theorem C8_create_always_posts (s : Nat) (t : Bool) :
    (create_pull_request s t).1.count Effect.createPRCall = 1 ∧
    Effect.lookupPR ∉ (create_pull_request s t).1 ∧
    ((create_pull_request s t).2 = PRRes.alreadyExists ↔
      (s = 422 ∧ t = true)) := by
  refine ⟨rfl, by simp [create_pull_request], ?_⟩
  unfold create_pull_request
  by_cases h1 : s = 201
  · subst h1
    simp
  · rw [if_neg h1]
    by_cases h2 : s = 422 ∧ t = true
    · rw [if_pos h2]
      simp [h2.1, h2.2]
    · rw [if_neg h2]
      simp [h2]

/-- Witness for the amended C8 at a concrete failing response. -/
theorem C8_create_always_posts_witness :
    (create_pull_request 500 false).1.count Effect.createPRCall = 1 ∧
    Effect.lookupPR ∉ (create_pull_request 500 false).1 ∧
    ((create_pull_request 500 false).2 = PRRes.alreadyExists ↔
      ((500 : Nat) = 422 ∧ false = true)) :=
  C8_create_always_posts 500 false

/-- Concrete world for C1: the branches agree, the mutation changes a field,
there are staged changes, and the conditional push is rejected. -/
def wC1 : World :=
  { mainLocal := true, updLocal := false, baseRev := "aaa"
    updateRev := some "aaa", contentDiffers := false, mergeOk := true
    amiId := some "img-001", doc := [("PROD_AMI", "img-000")]
    remoteUpdListed := true, rebaseOk := true, staged := true
    pushOk := false, prStatus := 0, prAlreadyText := false }

/-- C1 counterexample: in a run whose first conditional push is rejected,
the process exits fatally at once — the trace contains exactly one push
attempt and ends with it (no re-fetch, no rebase, no second push) — refuting
"the run never fails fatally on the first rejection" and "performs exactly
one recovery attempt". -/
theorem C1_counterexample :
    (mainRun wC1).exitCode = 1 ∧
    (mainRun wC1).effects.count Effect.push = 1 ∧
    (mainRun wC1).effects.getLast? = some Effect.push := by decide

/-- C1 amended: a rejected conditional push is immediately fatal: whenever
the publisher reaches the push with staged changes and the push is rejected,
`commit_and_push_changes` exits fatally having attempted the push exactly
once, with nothing after it in the trace — the only rebase happens before
the commit (the `git pull --rebase` at line 146), never in response to a
rejection. -/
theorem C1_push_reject_fatal (w : World) (l : Bool)
    (hreb : w.remoteUpdListed = true → w.rebaseOk = true)
    (hst : w.staged = true) (hp : w.pushOk = false) :
    (commit_and_push_changes w l).2 = CPRes.fatal ∧
    (commit_and_push_changes w l).1.count Effect.push = 1 ∧
    (commit_and_push_changes w l).1.getLast? = some Effect.push := by
  cases hr : w.remoteUpdListed
  · cases l <;>
      simp [commit_and_push_changes, stageCommitPush, checkout_branch, hr,
        hst, hp]
  · have hrb := hreb hr
    cases l <;>
      simp [commit_and_push_changes, stageCommitPush, checkout_branch, hr,
        hrb, hst, hp]

/-- Witness for the amended C1 at the concrete world `wC1`. -/
theorem C1_push_reject_fatal_witness :
    (commit_and_push_changes wC1 true).2 = CPRes.fatal ∧
    (commit_and_push_changes wC1 true).1.count Effect.push = 1 ∧
    (commit_and_push_changes wC1 true).1.getLast? = some Effect.push :=
  C1_push_reject_fatal wC1 true (fun _ => rfl) rfl rfl

/-- C5: a merge conflict while merging the base branch into the update
branch is not retried — the merge is attempted exactly once, the merge state
is aborted, the run exits fatally, and no commit or push happens. -/
theorem C5_merge_conflict_fatal (w : World)
    (hd : (branches_differ w).2 = some true) (hm : w.mergeOk = false) :
    (mainRun w).exitCode = 1 ∧
    (mainRun w).effects.count Effect.mergeAttempt = 1 ∧
    Effect.mergeAbort ∈ (mainRun w).effects ∧
    Effect.commit ∉ (mainRun w).effects ∧
    Effect.push ∉ (mainRun w).effects ∧
    Effect.createPRCall ∉ (mainRun w).effects := by
  have hs := branches_differ_some_isSome w true hd
  obtain ⟨h2, htr⟩ := merge_trace_conflict w hs hm
  unfold mainRun
  rw [hd, h2]
  rcases branches_differ_trace w with hbt | hbt <;>
    rcases htr with hmt | hmt <;>
    cases hml : w.mainLocal <;>
    simp [checkout_branch, hbt, hmt]

/-- Concrete world for the C5 witness: heads and content differ and the
merge conflicts. -/
def wC5 : World :=
  { mainLocal := true, updLocal := true, baseRev := "aaa"
    updateRev := some "bbb", contentDiffers := true, mergeOk := false
    amiId := some "img-001", doc := [("PROD_AMI", "img-000")]
    remoteUpdListed := true, rebaseOk := true, staged := true
    pushOk := true, prStatus := 201, prAlreadyText := false }

/-- Witness for C5 at the concrete world `wC5`. -/
theorem C5_merge_conflict_fatal_witness :
    (mainRun wC5).exitCode = 1 ∧
    (mainRun wC5).effects.count Effect.mergeAttempt = 1 ∧
    Effect.mergeAbort ∈ (mainRun wC5).effects ∧
    Effect.commit ∉ (mainRun wC5).effects ∧
    Effect.push ∉ (mainRun wC5).effects ∧
    Effect.createPRCall ∉ (mainRun wC5).effects :=
  C5_merge_conflict_fatal wC5 (by decide) rfl

/-- Concrete world for C6: the remote update branch does not exist. -/
def wC6 : World :=
  { mainLocal := true, updLocal := false, baseRev := "aaa"
    updateRev := none, contentDiffers := false, mergeOk := true
    amiId := some "img-001", doc := [("PROD_AMI", "img-000")]
    remoteUpdListed := false, rebaseOk := true, staged := true
    pushOk := true, prStatus := 201, prAlreadyText := false }

/-- C6 counterexample: with the update branch absent from the remote, the
run neither creates a local branch nor pushes anything — it exits 1 before
even mutating the file — refuting "creates it from the current base-branch
tip and publishes it immediately and proceeds without error". -/
theorem C6_counterexample :
    wC6.updateRev = none ∧
    (mainRun wC6).exitCode = 1 ∧
    Effect.push ∉ (mainRun wC6).effects ∧
    Effect.createLocalBranch ∉ (mainRun wC6).effects ∧
    Effect.mutateFile ∉ (mainRun wC6).effects := by decide

/-- C6 amended: when the update branch does not exist remotely the run fails
with exit code 1 during the divergence check — before any mutation, branch
creation or push — because `git rev-parse` of the missing remote ref raises;
the branch would only ever be created (locally, then pushed) inside
`commit_and_push_changes`, after mutation. -/
theorem C6_missing_branch_fatal (w : World) (h : w.updateRev = none) :
    (mainRun w).exitCode = 1 ∧
    Effect.push ∉ (mainRun w).effects ∧
    Effect.createLocalBranch ∉ (mainRun w).effects ∧
    Effect.commit ∉ (mainRun w).effects ∧
    Effect.mutateFile ∉ (mainRun w).effects := by
  have hb : (branches_differ w).2 = none := by
    unfold branches_differ
    rw [h]
  have ht : (branches_differ w).1 =
      [Effect.fetchOrigin, Effect.revParse, Effect.revParse] := by
    unfold branches_differ
    rw [h]
  unfold mainRun
  rw [hb, ht]
  cases hml : w.mainLocal <;> simp [checkout_branch]

/-- Witness for the amended C6 at the concrete world `wC6`. -/
theorem C6_missing_branch_fatal_witness :
    (mainRun wC6).exitCode = 1 ∧
    Effect.push ∉ (mainRun wC6).effects ∧
    Effect.createLocalBranch ∉ (mainRun wC6).effects ∧
    Effect.commit ∉ (mainRun wC6).effects ∧
    Effect.mutateFile ∉ (mainRun wC6).effects :=
  C6_missing_branch_fatal wC6 rfl

theorem cp_nostage (w : World) (l : Bool)
    (hreb : w.remoteUpdListed = true → w.rebaseOk = true)
    (hst : w.staged = false) :
    (commit_and_push_changes w l).2 = CPRes.noChange ∧
    Effect.commit ∉ (commit_and_push_changes w l).1 ∧
    Effect.push ∉ (commit_and_push_changes w l).1 ∧
    Effect.createPRCall ∉ (commit_and_push_changes w l).1 ∧
    Effect.lookupPR ∉ (commit_and_push_changes w l).1 := by
  cases hr : w.remoteUpdListed
  · cases l <;>
      simp [commit_and_push_changes, stageCommitPush, checkout_branch, hr,
        hst]
  · have hrb := hreb hr
    cases l <;>
      simp [commit_and_push_changes, stageCommitPush, checkout_branch, hr,
        hrb, hst]

/-- C4: a run that produces no effective change — the mutation updates no
key, or nothing is staged after serialization — performs no commit, no push
and no pull-request call, and exits 0 (success).  The hypotheses restrict to
runs that reach the mutation: an AMI was found, and the divergence check
answered false, or answered true and the merge succeeded, and any
pre-commit rebase succeeds. -/
theorem C4_noop_short_circuit (w : World) (ami : String)
    (hami : w.amiId = some ami)
    (hpath : (branches_differ w).2 = some false ∨
      ((branches_differ w).2 = some true ∧ w.mergeOk = true))
    (hreb : w.remoteUpdListed = true → w.rebaseOk = true) :
    ((update_yaml_file_preserve_tags w.doc ami).2 = [] →
      (mainRun w).exitCode = 0 ∧
      Effect.commit ∉ (mainRun w).effects ∧
      Effect.push ∉ (mainRun w).effects ∧
      Effect.createPRCall ∉ (mainRun w).effects ∧
      Effect.lookupPR ∉ (mainRun w).effects) ∧
    ((update_yaml_file_preserve_tags w.doc ami).2 ≠ [] → w.staged = false →
      (mainRun w).exitCode = 0 ∧
      Effect.commit ∉ (mainRun w).effects ∧
      Effect.push ∉ (mainRun w).effects ∧
      Effect.createPRCall ∉ (mainRun w).effects ∧
      Effect.lookupPR ∉ (mainRun w).effects) := by
  obtain ⟨E, L, hrun, hEc, hEp, hEr, hEl⟩ :
      ∃ E L, mainRun w = mainFromAmi w E L ∧ Effect.commit ∉ E ∧
        Effect.push ∉ E ∧ Effect.createPRCall ∉ E ∧ Effect.lookupPR ∉ E := by
    rcases hpath with h | ⟨h, hm⟩
    · refine ⟨[Effect.fetchAll] ++ (checkout_branch w.mainLocal false true).1
        ++ [Effect.pullMain] ++ (branches_differ w).1, w.updLocal, ?_, ?_,
        ?_, ?_, ?_⟩
      · unfold mainRun
        rw [h]
      all_goals
        cases hml : w.mainLocal <;>
          rcases branches_differ_trace w with hbt | hbt <;>
          simp [checkout_branch, hbt]
    · have hs := branches_differ_some_isSome w true h
      obtain ⟨h2, htr⟩ := merge_trace_ok w hs hm
      refine ⟨([Effect.fetchAll] ++ (checkout_branch w.mainLocal false true).1
        ++ [Effect.pullMain] ++ (branches_differ w).1) ++
        (merge_main_into_branch w).1, true, ?_, ?_, ?_, ?_, ?_⟩
      · unfold mainRun
        rw [h, h2]
      all_goals
        cases hml : w.mainLocal <;>
          rcases branches_differ_trace w with hbt | hbt <;>
          rcases htr with hmt | hmt <;>
          simp [checkout_branch, hbt, hmt]
  rw [hrun]
  constructor
  · intro h0
    have hred : mainFromAmi w E L = ⟨E ++ [Effect.mutateFile], 0⟩ := by
      simp [mainFromAmi, hami, h0]
    rw [hred]
    simp [hEc, hEp, hEr, hEl]
  · intro h0 hst
    obtain ⟨hcp2, hcpc, hcpp, hcpr, hcpl⟩ := cp_nostage w L hreb hst
    have h0b : (update_yaml_file_preserve_tags w.doc ami).2.isEmpty
        = false := by
      cases hl : (update_yaml_file_preserve_tags w.doc ami).2 with
      | nil => exact absurd hl h0
      | cons a l => rfl
    have hred : mainFromAmi w E L =
        ⟨E ++ [Effect.mutateFile] ++ (commit_and_push_changes w L).1, 0⟩ := by
      simp [mainFromAmi, hami, h0b, hcp2]
    rw [hred]
    simp [hEc, hEp, hEr, hEl, hcpc, hcpp, hcpr, hcpl]

/-- Concrete world for the C4 witness: the document already carries the
target version, so the mutation is a no-op. -/
def wC4 : World :=
  { mainLocal := true, updLocal := false, baseRev := "aaa"
    updateRev := some "aaa", contentDiffers := false, mergeOk := true
    amiId := some "img-001", doc := [("PROD_AMI", "img-001")]
    remoteUpdListed := true, rebaseOk := true, staged := false
    pushOk := true, prStatus := 201, prAlreadyText := false }

/-- Witness for C4 at the concrete world `wC4`. -/
theorem C4_noop_short_circuit_witness :
    (mainRun wC4).exitCode = 0 ∧
    Effect.commit ∉ (mainRun wC4).effects ∧
    Effect.push ∉ (mainRun wC4).effects ∧
    Effect.createPRCall ∉ (mainRun wC4).effects ∧
    Effect.lookupPR ∉ (mainRun wC4).effects :=
  (C4_noop_short_circuit wC4 "img-001" rfl (Or.inl (by decide))
    (fun _ => rfl)).1 (by decide)

/-- Concrete world for C9: everything succeeds up to and including the push,
and then the pull-request creation comes back with HTTP 500. -/
def wC9 : World :=
  { mainLocal := true, updLocal := false, baseRev := "aaa"
    updateRev := some "aaa", contentDiffers := false, mergeOk := true
    amiId := some "img-001", doc := [("PROD_AMI", "img-000")]
    remoteUpdListed := true, rebaseOk := true, staged := true
    pushOk := true, prStatus := 500, prAlreadyText := false }

/-- C9: the claim is right and the code is wrong — on an external API
failure (HTTP 500 to the pull-request creation, which is none of 201 and the
already-exists 422) the script prints a failure message but never calls
`sys.exit(1)`, so the process exits 0; evaluated here at the failing
world `wC9`. -/
theorem C9_api_failure_exits_zero :
    (create_pull_request wC9.prStatus wC9.prAlreadyText).2 = PRRes.failed ∧
    Effect.createPRCall ∈ (mainRun wC9).effects ∧
    (mainRun wC9).exitCode = 0 := by decide

/-- Concrete document for C10: both plan fields already hold the target
version. -/
def docC10 : Doc := [("PROD_AMI", "img-001"), ("DEV_AMI", "img-001")]

/-- C10 counterexample: with a document already at the target version the
mutation changes no field, yet the script still rewrites the target file —
the dump at lines 60-61 is unconditional — refuting "the target file is not
rewritten" when changedFields is empty. -/
theorem C10_counterexample :
    (update_yaml_file_preserve_tags docC10 "img-001").2 = [] ∧
    FileOp.write ∈ (updateFileRun docC10 "img-001").1 := by decide

/-- C10 amended: every load→mutate→save cycle performs exactly one read and
one write (the write happens even when no field changed), but the persisted
content carries no spurious change: when changedFields is empty the
persisted document equals the loaded one, and fields outside the plan are
never modified. -/
theorem C10_no_spurious_content (d : Doc) (v : String) :
    (updateFileRun d v).1 = [FileOp.read, FileOp.write] ∧
    ((update_yaml_file_preserve_tags d v).2 = [] →
      (update_yaml_file_preserve_tags d v).1 = d) ∧
    (∀ k, k ∉ mutationPlan →
      lookup (update_yaml_file_preserve_tags d v).1 k = lookup d k) :=
  ⟨rfl, fun h => update_of_nochange d v h,
    fun k hk => lookup_update_notin d v k hk⟩

/-- Witness for the amended C10: at a concrete no-change document the
persisted document equals the loaded one. -/
theorem C10_no_spurious_content_witness :
    (update_yaml_file_preserve_tags docC10 "img-001").1 = docC10 :=
  (C10_no_spurious_content docC10 "img-001").2.1 (by decide)

end AmiUpdate
